import Mathlib

/-!
Verification development for the bookify reading tracker.

The definitions below are a shallow embedding of the application's core
computations:

* the progress-update clamp of `src/components/ReadingProgress.tsx`
  (`updateProgress`);
* the status-transition logic of the `BookShelf` component
  (`updateBookStatus`);
* the statistics engine of the recommendations route (`calculateReadingStatistics`,
  `calculateStreaks`, `calculateGenreDistribution`) and of the dashboard
  (`calculateStreak`, `loadStats`);
* the series grouping of `src/app/api/search-series/route.ts`
  (`extractSeriesInfo` and the `GET` handler's grouping pipeline);
* the series-gap suggestion pipeline of the detect-missing-books route.

Strings are modelled as `List Char`; JavaScript `Date` values are modelled at
day granularity as integers (a day number), together with the calendar year
where the code extracts one.  JavaScript truthiness of strings is modelled by
letting `[]` stand for both an absent and an empty string where the code only
ever branches on truthiness.
-/

/-- Lowercase a character (ASCII, as used by `toLowerCase` on the inputs). -/
def lc (c : Char) : Char := c.toLower

/-- Lowercase a string, modelling `String.prototype.toLowerCase`. -/
def lowerS (s : List Char) : List Char := s.map lc

/-- Whitespace test, modelling the regex class `\s` on the inputs involved. -/
def isWsC (c : Char) : Bool := c = ' ' || c = '\t' || c = '\n' || c = '\r'

/-- Decimal digit test, modelling the regex class `\d`. -/
def isDigitC (c : Char) : Bool := '0' ≤ c && c ≤ '9'

/-- Word-character test, modelling the regex class `\w` (ASCII). -/
def isWordC (c : Char) : Bool :=
  isDigitC c || ('a' ≤ c && c ≤ 'z') || ('A' ≤ c && c ≤ 'Z') || c = '_'

/-- Exact prefix test for character lists. -/
def startsWithL : List Char → List Char → Bool
  | [], _ => true
  | _ :: _, [] => false
  | p :: ps, c :: rest => p = c && startsWithL ps rest

/-- Substring test, modelling `String.prototype.includes` (needle first). -/
def hasSub (n : List Char) : List Char → Bool
  | [] => startsWithL n []
  | c :: t => startsWithL n (c :: t) || hasSub n (t)

/-- Drop leading whitespace. -/
def dropWsL (s : List Char) : List Char := s.dropWhile isWsC

/-- Trim leading and trailing whitespace, modelling `String.prototype.trim`. -/
def trimWs (s : List Char) : List Char :=
  ((((s.dropWhile isWsC).reverse).dropWhile isWsC).reverse)

/-- Case-insensitive literal match: the pattern `p` is given in lowercase and
is matched against a prefix of `s`; on success the remainder of `s` is
returned. -/
def prefixCI : List Char → List Char → Option (List Char)
  | [], s => some s
  | _ :: _, [] => none
  | p :: ps, c :: rest => if lc c = p then prefixCI ps rest else none

/-- Numeric value of a digit string, modelling `parseInt` on a `\d+` capture. -/
def digitsToNat (s : List Char) : Nat :=
  s.foldl (fun a c => a * 10 + (c.toNat - ('0').toNat)) 0

/-
Book status and the BookShelf status transition (claim C3).

`updateBookStatus` in the BookShelf component builds
`updateData = { status: newStatus }` and, whenever the new status is `past`,
unconditionally adds `date_completed = new Date().toISOString()`; the row
update touches no other column.
-/

/-- The three book statuses stored in the `status` column. -/
inductive BStatus
  | planned
  | current
  | past
deriving DecidableEq

/-- The columns of a book row touched by `updateBookStatus` (all other columns
are left unchanged by that update). -/
structure ShelfBook where
  status : BStatus
  date_completed : Option Int
deriving DecidableEq

/-- Model of `updateBookStatus`: the row receives the new status, and
`date_completed` is overwritten with the current time exactly when the new
status is `past`. -/
def updateBookStatus (b : ShelfBook) (newStatus : BStatus) (now : Int) : ShelfBook :=
  { status := newStatus
    date_completed := if newStatus = BStatus.past then some now else b.date_completed }

/-
Reading-progress increment of `ReadingProgress.tsx` (claim C2).

`updateProgress` computes
`Math.min((currentBook.current_page || 0) + pagesRead, currentBook.total_pages || Infinity)`
and is a no-op when `pagesRead` is falsy (zero).
-/

/-- The columns of a book row involved in the progress increment. -/
structure PBook where
  current_page : Option Nat
  total_pages : Option Nat
deriving DecidableEq

/-- JavaScript `x || 0` on an optional count. -/
def jsOrZero : Option Nat → Nat
  | some n => n
  | none => 0

/-- JavaScript `total_pages || Infinity`: a missing value and the (falsy)
value `0` both disable the cap; a positive value keeps it. -/
def jsCap : Option Nat → Option Nat
  | some t => if t = 0 then none else some t
  | none => none

/-- Model of the `new_current_page` computation of `updateProgress`. -/
def newCurrentPage (b : PBook) (pagesRead : Nat) : Nat :=
  match jsCap b.total_pages with
  | some t => min (jsOrZero b.current_page + pagesRead) t
  | none => jsOrZero b.current_page + pagesRead

/-- One call of `updateProgress`: the guard `if (!currentBook || !pagesRead)`
makes a zero increment a no-op; otherwise `current_page` is written. -/
def applyIncrement (b : PBook) (p : Nat) : PBook :=
  if p = 0 then b else { b with current_page := some (newCurrentPage b p) }

/-- A sequence of `updateProgress` calls. -/
def applyIncrements (b : PBook) (ps : List Nat) : PBook :=
  ps.foldl applyIncrement b

/-
Statistics engine (claims C1, C4, C8, C9).

A timestamp is modelled at day granularity: `day` is the epoch-day of the
instant (so `getTime` differences in whole days are differences of `day`) and
`year` is the calendar year `getFullYear` extracts from the same instant.
-/

/-- A timestamp, reduced to the two projections the statistics code uses. -/
structure TS where
  day : Int
  year : Int
deriving DecidableEq

/-- The book-row fields read by the statistics computations. -/
structure StatBook where
  title : List Char
  author : List Char
  status : BStatus
  date_added : Option TS
  date_completed : Option TS
  total_pages : Option Nat
  genre : List (List Char)
deriving DecidableEq

/-- A `daily_reading` row: calendar day (as a day number) and pages read. -/
structure DailyEntry where
  date : Int
  pages_read : Nat
deriving DecidableEq

/-- `Math.round(num / den)` for non-negative operands (`den > 0` at all call
sites): round half up. -/
def jsRound (num den : Nat) : Nat := (2 * num + den) / (2 * den)

/-- `Math.round(num / den)` for a possibly negative numerator: JavaScript
rounds half toward positive infinity, i.e. `⌊num / den + 1 / 2⌋`. -/
def intRound (num : Int) (den : Nat) : Int := (2 * num + den).fdiv (2 * den)

/-- `completedBooks` of `calculateReadingStatistics`. -/
def completedCount (books : List StatBook) : Nat :=
  (books.filter (fun b => decide (b.status = BStatus.past))).length

/-- `completionRate` of `calculateReadingStatistics`. -/
def completionRate (books : List StatBook) : Nat :=
  if books.length > 0 then jsRound (completedCount books * 100) books.length else 0

/-- `booksThisYear` of `calculateReadingStatistics` (recommendations route):
counts every book whose `date_completed` falls in the reference year,
regardless of its status. -/
def booksThisYearA (books : List StatBook) (y : Int) : Nat :=
  (books.filter (fun b =>
    match b.date_completed with
    | some d => decide (d.year = y)
    | none => false)).length

/-- `goalProgress` of `calculateReadingStatistics`. -/
def goalProgressA (books : List StatBook) (goal : Nat) (y : Int) : Nat :=
  if goal > 0 then jsRound (booksThisYearA books y * 100) goal else 0

/-- `completedBooks` of the dashboard's `loadStats`: status `past` and a
non-null `date_completed`. -/
def completedWithDate (books : List StatBook) : List StatBook :=
  books.filter (fun b => decide (b.status = BStatus.past) && b.date_completed.isSome)

/-- `booksThisYear` of the dashboard's `loadStats`. -/
def booksThisYearB (books : List StatBook) (y : Int) : Nat :=
  ((completedWithDate books).filter (fun b =>
    match b.date_completed with
    | some d => decide (d.year = y)
    | none => false)).length

/-- `readingGoalProgress` of the dashboard's `loadStats`: `0` for a falsy
goal, otherwise `Math.min(100, Math.round(booksThisYear / goal * 100))`. -/
def readingGoalProgressB (books : List StatBook) (goal : Nat) (y : Int) : Nat :=
  if goal = 0 then 0 else min 100 (jsRound (booksThisYearB books y * 100) goal)

/-- `activeDays`: the size of the set of entry dates. -/
def activeDays (entries : List DailyEntry) : Nat :=
  ((entries.map (fun e => e.date)).dedup).length

/-- `totalPagesRead`. -/
def totalPagesRead (entries : List DailyEntry) : Nat :=
  (entries.map (fun e => e.pages_read)).sum

/-- `averagePagesPerDay` of `calculateReadingStatistics`. -/
def averagePagesPerDay (entries : List DailyEntry) : Nat :=
  if activeDays entries > 0 then jsRound (totalPagesRead entries) (activeDays entries) else 0

/-- The descending order used by `.sort((a, b) => b.getTime() - a.getTime())`. -/
def descInt (a b : Int) : Prop := b ≤ a

instance : DecidableRel descInt := fun a b => Int.decLe b a

/-- The date sort of `calculateReadingStatistics` (stable, descending). -/
def sortDatesDesc (l : List Int) : List Int := List.insertionSort descInt l

/-- The loop body of `calculateStreaks` (recommendations route): `prev` is
`sortedDates[i-1]`, `first` records whether `i = 1`. -/
def streaksGo (prev : Int) (temp longest current : Nat) (first : Bool) :
    List Int → Nat × Nat
  | [] => (max longest temp, current)
  | d :: rest =>
      if (prev - d).natAbs ≤ 1 then
        streaksGo d (temp + 1) longest (if first then temp + 1 else current) false rest
      else
        streaksGo d 1 (max longest temp) (if first then 1 else current) false rest

/-- `calculateStreaks` of the recommendations route: returns
`(longestStreak, currentStreak)` from the date list sorted descending. -/
def calculateStreaks : List Int → Nat × Nat
  | [] => (0, 0)
  | d :: rest => streaksGo d 1 1 1 true rest

/-- The streak pipeline of `calculateReadingStatistics`: map the entries to
their dates, sort descending, and run `calculateStreaks`. -/
def streakStats (entries : List DailyEntry) : Nat × Nat :=
  calculateStreaks (sortDatesDesc (entries.map (fun e => e.date)))

/-- The walk of the dashboard's `calculateStreak`: starting from `lastDate`,
count entries while each difference `lastDate - entry` is at most one day,
stopping at the first larger gap (`break`). -/
def walkStreak (lastDate : Int) : List Int → Nat
  | [] => 0
  | d :: rest => if lastDate - d ≤ 1 then 1 + walkStreak d rest else 0

/-- The dashboard's `calculateStreak`: sort the entry dates descending, walk
from today, and force the result to `0` when the most recent entry is more
than one day older than today. -/
def calculateStreak (today : Int) (entries : List Int) : Nat :=
  match sortDatesDesc entries with
  | [] => 0
  | first :: rest =>
      let streak := walkStreak today (first :: rest)
      if today - first > 1 then 0 else streak

/-- One `readingTimes` record of `calculateReadingStatistics`. -/
structure ReadTime where
  title : List Char
  days : Int
  pages : Nat
deriving DecidableEq

/-- `readingTimes`: completed books carrying both dates, with
`days = ceil((completed - added) in days)` (exact at day granularity). -/
def readingTimes (books : List StatBook) : List ReadTime :=
  books.filterMap (fun b =>
    if b.status = BStatus.past then
      match b.date_added, b.date_completed with
      | some s, some e => some ⟨b.title, e.day - s.day, jsOrZero b.total_pages⟩
      | _, _ => none
    else none)

/-- `averageTimePerBook` of `calculateReadingStatistics`. -/
def averageTimePerBook (books : List StatBook) : Int :=
  let rt := readingTimes books
  if rt.length > 0 then intRound ((rt.map (fun r => r.days)).sum) rt.length else 0

/-- `fastestRead`: `reduce` keeping the record with the strictly smaller
`days`, so ties keep the earlier record; `null` on an empty list. -/
def fastestRead (books : List StatBook) : Option ReadTime :=
  match readingTimes books with
  | [] => none
  | h :: t => some (t.foldl (fun fastest cur => if cur.days < fastest.days then cur else fastest) h)

/-- Bump the count of one genre occurrence in the accumulated distribution
(insertion order preserved, as for JavaScript object keys). -/
def bumpGenre (g : List Char) : List (List Char × Nat) → List (List Char × Nat)
  | [] => [(g, 1)]
  | (k, n) :: rest => if k = g then (k, n + 1) :: rest else (k, n) :: bumpGenre g rest

/-- The count accumulation of `calculateGenreDistribution`: every book
contributes one count for every entry of its genre array. -/
def genreCounts (books : List StatBook) : List (List Char × Nat) :=
  books.foldl (fun acc b => b.genre.foldl (fun a g => bumpGenre g a) acc) []

/-- A genre's entry in the final distribution. -/
structure GenreStat where
  count : Nat
  percentage : Nat
deriving DecidableEq

/-- The descending-count order of the final distribution sort. -/
def genreDesc (x y : List Char × GenreStat) : Prop := y.2.count ≤ x.2.count

instance : DecidableRel genreDesc := fun x y => Nat.decLe y.2.count x.2.count

/-- `calculateGenreDistribution`: counts, then percentages of the total book
count, then a stable sort descending by count. -/
def calculateGenreDistribution (books : List StatBook) : List (List Char × GenreStat) :=
  let total := books.length
  List.insertionSort genreDesc
    ((genreCounts books).map (fun p =>
      (p.1, ⟨p.2, if total > 0 then jsRound (p.2 * 100) total else 0⟩)))

/-- The sum of the counts of a genre distribution. -/
def distSum (d : List (List Char × GenreStat)) : Nat :=
  (d.map (fun p => p.2.count)).sum

/-
Series search route (`src/app/api/search-series/route.ts`): claims C5, C6,
C9, C10.

`extractSeriesInfo` applies a fixed list of title regexes in order; the first
pattern whose capture group is non-empty supplies the series name (trimmed).
Each pattern with a lazy leading group `^(.*?)...` is modelled by scanning for
the smallest split of the title whose tail matches the rest of the pattern.
-/

/-- Scan for the smallest split `title = pre ++ tail` whose `tail` satisfies
`p`; returns the captured prefix `pre` (the lazy group `^(.*?)` of the
regexes below).  `acc` holds the reversed prefix scanned so far. -/
def scanSplit (p : List Char → Bool) : List Char → List Char → Option (List Char)
  | acc, s =>
    if p s then some acc.reverse
    else
      match s with
      | [] => none
      | c :: cs => scanSplit p (c :: acc) cs

/-- Tail of `/^(.*?)\s+and\s+the\s+/i`: whitespace, `and`, whitespace, `the`,
whitespace (each run non-empty; dropping a whole run is equivalent since the
following literal never starts with whitespace). -/
def tailAndThe (s : List Char) : Bool :=
  match s with
  | c :: rest =>
    isWsC c &&
      (match prefixCI ("and".toList) (dropWsL rest) with
       | some r2 =>
         (match r2 with
          | c2 :: rest2 =>
            isWsC c2 &&
              (match prefixCI ("the".toList) (dropWsL rest2) with
               | some r3 =>
                 (match r3 with
                  | c3 :: _ => isWsC c3
                  | [] => false)
               | none => false)
          | [] => false)
       | none => false)
  | [] => false

/-- Tail of `/^(.*?):\s+/i`: a colon followed by at least one whitespace. -/
def tailColonWs (s : List Char) : Bool :=
  match s with
  | ':' :: c :: _ => isWsC c
  | _ => false

/-- Head-is-digit test (start of a `\d+`). -/
def headDigit (s : List Char) : Bool :=
  match s with
  | c :: _ => isDigitC c
  | [] => false

/-- Tail of `/^(.*?):\s*book\s*\d+/i`. -/
def tailColonBook (s : List Char) : Bool :=
  match s with
  | ':' :: rest =>
    (match prefixCI ("book".toList) (dropWsL rest) with
     | some r2 => headDigit (dropWsL r2)
     | none => false)
  | _ => false

/-- Tail of `/^(.*?)\s*#\s*\d+/i`. -/
def tailHashNum (s : List Char) : Bool :=
  match dropWsL s with
  | '#' :: rest => headDigit (dropWsL rest)
  | _ => false

/-- Tail of `/^(.*?)\s+book\s+\d+/i` (and, with another literal, of
`/^(.*?)\s+volume\s+\d+/i`): whitespace, the literal, whitespace, a digit. -/
def tailWordNum (w : List Char) (s : List Char) : Bool :=
  match s with
  | c :: rest =>
    isWsC c &&
      (match prefixCI w (dropWsL rest) with
       | some r2 =>
         (match r2 with
          | c2 :: rest2 => isWsC c2 && headDigit (dropWsL rest2)
          | [] => false)
       | none => false)
  | [] => false

/-- Tail of `/^(.*?)\s*\(book\s*\d+\)/i`: optional whitespace, `(book`,
optional whitespace, digits, `)`. -/
def tailParenBook (s : List Char) : Bool :=
  match dropWsL s with
  | '(' :: rest =>
    (match prefixCI ("book".toList) rest with
     | some r2 =>
       (match dropWsL r2 with
        | c :: r3 => isDigitC c && (match r3.dropWhile isDigitC with
            | ')' :: _ => true
            | _ => false)
        | [] => false)
     | none => false)
  | _ => false

/-- The greedy variant for `/^(.*chronicles.*?):\s+/i`: the split is the last
colon-plus-whitespace position whose prefix contains `chronicles`
(case-insensitively); the greedy leading `.*` pushes the match as far right
as possible.  `best` holds the best capture found so far. -/
def scanSplitChron : List Char → Option (List Char) → List Char → Option (List Char)
  | acc, best, s =>
    let best' :=
      if tailColonWs s && hasSub ("chronicles".toList) (lowerS acc.reverse) then
        some acc.reverse
      else best
    match s with
    | [] => best'
    | c :: cs => scanSplitChron (c :: acc) best' cs

/-- The name-pattern chain of `extractSeriesInfo`: the eight `patterns`
entries tried in order; the first match with a non-empty capture group wins
and its group is trimmed.  `[]` models "no (truthy) name found". -/
def patternName (t : List Char) : List Char :=
  let step : Option (List Char) → (List Char → Bool) → Option (List Char) :=
    fun found tail =>
      match found with
      | some pre => some pre
      | none =>
        match scanSplit tail [] t with
        | some pre => if pre = [] then none else some pre
        | none => none
  let viaChron : Option (List Char) → Option (List Char) :=
    fun found =>
      match found with
      | some pre => some pre
      | none =>
        match scanSplitChron [] none t with
        | some pre => if pre = [] then none else some pre
        | none => none
  let found :=
    viaChron
      (step (step (step (step (step (step (step none
        tailAndThe) tailColonWs) tailColonBook) tailHashNum)
        (tailWordNum ("book".toList))) tailParenBook)
        (tailWordNum ("volume".toList)))
  match found with
  | some pre => trimWs pre
  | none => []

/-- One `orderPatterns` entry of the form `word\s*(\d+)`: scan left to right
for the first occurrence of the literal followed by optional whitespace and
digits, and capture the digits. -/
def scanWordOrder (w : List Char) : List Char → Option Nat
  | [] => none
  | c :: rest =>
    match prefixCI w (c :: rest) with
    | some r =>
      let r' := dropWsL r
      if headDigit r' then some (digitsToNat (r'.takeWhile isDigitC))
      else scanWordOrder w rest
    | none => scanWordOrder w rest

/-- The `/#(\d+)/` order pattern: a hash immediately followed by digits. -/
def scanHashOrder : List Char → Option Nat
  | [] => none
  | '#' :: rest =>
    if headDigit rest then some (digitsToNat (rest.takeWhile isDigitC))
    else scanHashOrder rest
  | _ :: rest => scanHashOrder rest

/-- The `/\(book\s*(\d+)\)/i` order pattern. -/
def scanParenBookOrder : List Char → Option Nat
  | [] => none
  | '(' :: rest =>
    (match prefixCI ("book".toList) rest with
     | some r2 =>
       let r3 := dropWsL r2
       if headDigit r3 && (match r3.dropWhile isDigitC with
           | ')' :: _ => true
           | _ => false) then
         some (digitsToNat (r3.takeWhile isDigitC))
       else scanParenBookOrder rest
     | none => scanParenBookOrder rest)
  | _ :: rest => scanParenBookOrder rest

/-- The `orderPatterns` chain of `extractSeriesInfo`, first match wins. -/
def orderLookup (t : List Char) : Option Nat :=
  match scanWordOrder ("book".toList) t with
  | some n => some n
  | none =>
    match scanHashOrder t with
    | some n => some n
    | none =>
      match scanParenBookOrder t with
      | some n => some n
      | none =>
        match scanWordOrder ("volume".toList) t with
        | some n => some n
        | none => scanWordOrder ("part".toList) t

/-- The `knownSeries` allow-list of `extractSeriesInfo`. -/
def knownSeries : List (List Char) :=
  [("harry potter".toList), ("lord of the rings".toList),
   ("chronicles of narnia".toList), ("hunger games".toList),
   ("twilight".toList), ("divergent".toList), ("maze runner".toList),
   ("foundation".toList), ("dune".toList), ("game of thrones".toList),
   ("wheel of time".toList), ("mistborn".toList), ("stormlight archive".toList)]

/-- The known-series substring fallback, run on the lowercased title when the
patterns produced no truthy name. -/
def knownLookup (clean : List Char) : List Char :=
  match knownSeries.find? (fun s => hasSub s clean) with
  | some s => s
  | none => []

/-- The Harry Potter order table of `extractSeriesInfo`. -/
def hpOrder (clean : List Char) (o : Option Nat) : Option Nat :=
  if hasSub ("philosopher".toList) clean || hasSub ("sorcerer".toList) clean then some 1
  else if hasSub ("chamber".toList) clean then some 2
  else if hasSub ("prisoner".toList) clean then some 3
  else if hasSub ("goblet".toList) clean then some 4
  else if hasSub ("phoenix".toList) clean then some 5
  else if hasSub ("prince".toList) clean then some 6
  else if hasSub ("hallows".toList) clean then some 7
  else o

/-- The Lord of the Rings order table of `extractSeriesInfo`. -/
def lotrOrder (clean : List Char) (o : Option Nat) : Option Nat :=
  if hasSub ("fellowship".toList) clean then some 1
  else if hasSub ("two towers".toList) clean then some 2
  else if hasSub ("return".toList) clean then some 3
  else o

/-- The canonicalisation step of `extractSeriesInfo`, applied to a truthy
series name: the two known-series rewrites in sequence. -/
def canonSeries (clean s : List Char) (o : Option Nat) : List Char × Option Nat :=
  let p1 :=
    if hasSub ("harry potter".toList) (lowerS s) then
      (("Harry Potter".toList), hpOrder clean o)
    else (s, o)
  if hasSub ("lord of the rings".toList) (lowerS p1.1) then
    (("The Lord of the Rings".toList), lotrOrder clean p1.2)
  else p1

/-- The result of `extractSeriesInfo`; `seriesName = []` models a falsy
(absent or empty) name, and the `totalBooks` field of the source interface is
omitted because the function never assigns it. -/
structure SeriesInfo where
  seriesName : List Char
  order : Option Nat
deriving DecidableEq

/-- `extractSeriesInfo` of the search-series route. -/
def extractSeriesInfo (title : List Char) : SeriesInfo :=
  let clean := lowerS title
  let fromPatterns := patternName title
  let s1 := if fromPatterns = [] then knownLookup clean else fromPatterns
  let o1 := orderLookup title
  if s1 = [] then ⟨s1, o1⟩
  else
    let p := canonSeries clean s1 o1
    ⟨p.1, p.2⟩

/-
The grouping pipeline of the search-series `GET` handler.
-/

/-- A raw Google Books item, reduced to the fields the grouping reads
(`title` and `authors`); `[]` models a missing or empty (falsy) title, and an
empty `authors` list models both a missing and an empty author array — the
handler skips the item in each of these cases.  The remaining volume fields
(published date, description, page count, images, categories) are copied into
the grouped book unchanged and are not modelled. -/
structure RawItem where
  title : List Char
  authors : List (List Char)
deriving DecidableEq

/-- A book entry of a series group, as pushed by the handler. -/
structure GBook where
  title : List Char
  author : List Char
  order : Nat
deriving DecidableEq

/-- The per-key accumulator of the handler's `seriesMap`. -/
structure GroupData where
  books : List GBook
  author : List Char
  totalEstimate : Nat
deriving DecidableEq

/-- The grouping key `` `${seriesInfo.seriesName}-${author}` ``. -/
def mkKey (name author : List Char) : List Char := name ++ '-' :: author

/-- The first element of `key.split('-')`: the prefix before the first
hyphen. -/
def keyName (key : List Char) : List Char := key.takeWhile (fun c => c ≠ '-')

/-- The order stored with a pushed book:
`seriesInfo.order || seriesData.books.length + 1`, where a parsed order of
`0` is falsy and also takes the default. -/
def jsOrderDefault (o : Option Nat) (len : Nat) : Nat :=
  match o with
  | some n => if n = 0 then len + 1 else n
  | none => len + 1

/-- Push one candidate book onto a group (the handler's
`seriesData.books.push(...)`); `extractSeriesInfo` never yields a
`totalBooks`, so `totalEstimate` is never updated. -/
def pushBook (gd : GroupData) (t a : List Char) (o : Option Nat) : GroupData :=
  { gd with books := gd.books ++ [⟨t, a, jsOrderDefault o gd.books.length⟩] }

/-- Insert a candidate into the keyed group list, creating the group on first
sight (`seriesMap.set(key, {books: [], author, totalEstimate: 0})` followed
by the push); insertion order of keys is preserved as for a JavaScript
`Map`. -/
def insertGroup (key t a : List Char) (o : Option Nat) :
    List (List Char × GroupData) → List (List Char × GroupData)
  | [] => [(key, pushBook ⟨[], a, 0⟩ t a o)]
  | (k, gd) :: rest =>
    if k = key then (k, pushBook gd t a o) :: rest
    else (k, gd) :: insertGroup key t a o rest

/-- Process one raw item of `data.items.forEach`: skip items without a truthy
title or a non-empty author list, extract the series signal, and group the
candidate when a truthy series name was found. -/
def processItem (acc : List (List Char × GroupData)) (it : RawItem) :
    List (List Char × GroupData) :=
  match it.title, it.authors with
  | [], _ => acc
  | _, [] => acc
  | t, a :: _ =>
    let si := extractSeriesInfo t
    if si.seriesName = [] then acc
    else insertGroup (mkKey si.seriesName a) t a si.order acc

/-- The fully built `seriesMap`, in key insertion order. -/
def buildGroups (items : List RawItem) : List (List Char × GroupData) :=
  items.foldl processItem []

/-- One entry of the handler's response. -/
structure SeriesResult where
  seriesName : List Char
  totalBooks : Nat
  author : List Char
  books : List GBook
deriving DecidableEq

/-- Title normalisation of the dedup step:
`title.toLowerCase().replace(/[^\w\s]/g, '')`. -/
def normTitle (t : List Char) : List Char :=
  (lowerS t).filter (fun c => isWordC c || isWsC c)

/-- Dedup by normalised title, keeping the first occurrence (`seenTitles`). -/
def dedupByNorm (seen : List (List Char)) : List GBook → List GBook
  | [] => []
  | b :: rest =>
    if seen.contains (normTitle b.title) then dedupByNorm seen rest
    else b :: dedupByNorm (normTitle b.title :: seen) rest

/-- The ascending order of the in-group sort `(a, b) => a.order - b.order`. -/
def gbookLe (x y : GBook) : Prop := x.order ≤ y.order

instance : DecidableRel gbookLe := fun x y => Nat.decLe x.order y.order

/-- Turn one group into a response entry: sort by order, dedup by normalised
title, and keep the group only when at least two unique books remain; the
reported series name is the first element of `key.split('-')`. -/
def groupToResult (key : List Char) (gd : GroupData) : Option SeriesResult :=
  let sorted := List.insertionSort gbookLe gd.books
  let uniq := dedupByNorm [] sorted
  if 2 ≤ uniq.length then
    some ⟨keyName key, max gd.totalEstimate uniq.length, gd.author, uniq⟩
  else none

/-- The relevance score `a.books.length * 2 + (a.totalBooks || 0)`. -/
def relevance (r : SeriesResult) : Nat := r.books.length * 2 + r.totalBooks

/-- The final descending relevance order `(a, b) => bRel - aRel`. -/
def relDesc (x y : SeriesResult) : Prop := relevance y ≤ relevance x

instance : DecidableRel relDesc := fun x y => Nat.decLe (relevance y) (relevance x)

/-- The grouping pipeline of the search-series `GET` handler, from the raw
item list to the JSON payload: group, filter to groups of at least two unique
books, sort by relevance, and return the first ten. -/
def resolveSeries (items : List RawItem) : List SeriesResult :=
  (List.insertionSort relDesc
    ((buildGroups items).filterMap (fun p => groupToResult p.1 p.2))).take 10

/-- The handler's `if (!data.items) return NextResponse.json([])` guard. -/
def resolveSeriesResponse : Option (List RawItem) → List SeriesResult
  | none => []
  | some items => resolveSeries items

example : extractSeriesInfo ("The Hobbit".toList) = ⟨[], none⟩ := by decide
example : extractSeriesInfo ("Emma".toList) = ⟨[], none⟩ := by decide
example : extractSeriesInfo ("Spider-Man: Homecoming".toList)
    = ⟨("Spider-Man".toList), none⟩ := by decide
example : extractSeriesInfo ("Spider-Man: Chronicles Book 5".toList)
    = ⟨("Spider-Man".toList), some 5⟩ := by decide
example : extractSeriesInfo ("Harry Potter and the Chamber of Secrets".toList)
    = ⟨("Harry Potter".toList), some 2⟩ := by decide
example : extractSeriesInfo ("Mistborn: The Final Empire".toList)
    = ⟨("Mistborn".toList), none⟩ := by decide

/-
Missing-series-books route (claims C7, C9): the pure pipeline of the `POST`
handler from the fetched candidate stream to the suggestion list.
-/

/-- A raw candidate from the search collaborator, reduced to the fields the
pipeline reads; `title = []` models a missing/empty title, `authors = []`
models both a missing and an empty author array (the item is skipped either
way), and `publishedDate` is the parsed time of the date string (`none` for a
missing or falsy date). -/
structure GapItem where
  title : List Char
  authors : List (List Char)
  publishedDate : Option Int
deriving DecidableEq

/-- A `bookDetails` record kept by the handler. -/
structure GapBook where
  title : List Char
  author : List Char
  publishedDate : Option Int
deriving DecidableEq

/-- The `excludePatterns` list of companion/spinoff keywords. -/
def excludePatterns : List (List Char) :=
  [("guide".toList), ("companion".toList), ("magical year".toList),
   ("cookbook".toList), ("journal".toList), ("diary".toList),
   ("handbook".toList), ("encyclopedia".toList), ("lexicon".toList),
   ("atlas".toList), ("illustrated".toList), ("screenplay".toList),
   ("script".toList), ("tales of".toList), ("fantastic beasts".toList),
   ("quidditch".toList), ("beedle".toList), ("cursed child".toList),
   ("short stories".toList), ("collection".toList), ("anthology".toList),
   ("treasury".toList), ("archive".toList)]

/-- `seriesName.split(' ')[0]`. -/
def firstWord (s : List Char) : List Char := s.takeWhile (fun c => c ≠ ' ')

/-- The candidate filter and `allBooks`-keyed dedup of the gathering loop:
`seen` is the set of `` `${title}-${author}` `` keys already taken, `acc` the
`bookDetails` gathered so far; `sl` and `al` are the lowercased series name
and owner author. -/
def gapFilterStep (sl al : List Char) (st : List (List Char) × List GapBook)
    (it : GapItem) : List (List Char) × List GapBook :=
  match it.title, it.authors with
  | [], _ => st
  | _, [] => st
  | t, a :: _ =>
    let tl := lowerS t
    let isExcluded := excludePatterns.any (fun p => hasSub p tl)
    let authorOk := lowerS a = al
    let seriesOk :=
      hasSub sl tl || hasSub (firstWord sl) tl ||
      (hasSub ("harry potter".toList) sl && hasSub ("harry potter".toList) tl) ||
      (hasSub ("lord of the rings".toList) sl && hasSub ("ring".toList) tl) ||
      (hasSub ("chronicles".toList) sl && hasSub ("chronicles".toList) tl)
    if !isExcluded && authorOk && seriesOk then
      let key := t ++ '-' :: a
      if st.1.contains key then st
      else (key :: st.1, st.2 ++ [⟨t, a, it.publishedDate⟩])
    else st

/-- The fuzzy duplicate test of the `uniqueBooks` filter: equal lowercased
titles, or containment of either lowercased title in the other. -/
def dupT (prev b : GapBook) : Bool :=
  let la := lowerS prev.title
  let lb := lowerS b.title
  la = lb || hasSub lb la || hasSub la lb

/-- The `uniqueBooks` filter: a record is dropped when any earlier record of
the gathered array (kept or not) fuzzily matches it. -/
def fuzzyDedupGo (prev : List GapBook) : List GapBook → List GapBook
  | [] => []
  | b :: rest =>
    if prev.any (fun p => dupT p b) then fuzzyDedupGo (prev ++ [b]) rest
    else b :: fuzzyDedupGo (prev ++ [b]) rest

/-- The `uniqueBooks` filter from the start of the gathered array. -/
def fuzzyDedup (l : List GapBook) : List GapBook := fuzzyDedupGo [] l

/-- Lexicographic character-code comparison, modelling `localeCompare` on the
ASCII titles involved (`true` when the compare result is at most zero). -/
def lexLe : List Char → List Char → Bool
  | [], _ => true
  | _ :: _, [] => false
  | a :: s, b :: t => if a = b then lexLe s t else decide (a < b)

/-- The sort comparator of the suggestions: publish date ascending when both
records have one, and otherwise `title.localeCompare` — a record without a
date is not pushed behind dated records. -/
def gapLe (a b : GapBook) : Bool :=
  match a.publishedDate, b.publishedDate with
  | some x, some y => decide (x ≤ y)
  | _, _ => lexLe a.title b.title

/-- The comparator as a relation for the stable sort. -/
def gapRel (a b : GapBook) : Prop := gapLe a b = true

instance : DecidableRel gapRel := fun a b => instDecidableEqBool (gapLe a b) true

/-- The suggestion sort (stable, as for the JavaScript array sort). -/
def sortGaps (l : List GapBook) : List GapBook := List.insertionSort gapRel l

/-- The pure pipeline of the missing-books `POST` handler: gather and filter
the candidate stream (the concatenated results of the three search queries),
fuzzily dedup, sort, truncate to five, and report the titles. -/
def findSeriesGaps (seriesName author : List Char) (items : List GapItem) :
    List (List Char) :=
  let sl := lowerS seriesName
  let al := lowerS author
  let details := (items.foldl (gapFilterStep sl al) ([], [])).2
  ((sortGaps (fuzzyDedup details)).take 5).map (fun b => b.title)

/-
Helper lemmas and claim theorems.
-/

/-- Invariant of repeated `updateProgress` calls: with a positive page total
the stored page never exceeds the total. -/
theorem applyIncrements_invariant (t : Nat) (ht : t ≠ 0) (ps : List Nat) :
    ∀ b : PBook, b.total_pages = some t → jsOrZero b.current_page ≤ t →
      (applyIncrements b ps).total_pages = some t ∧
        jsOrZero (applyIncrements b ps).current_page ≤ t := by
  induction ps with
  | nil => intro b htp hc; exact ⟨htp, hc⟩
  | cons p ps ih =>
      intro b htp hc
      have hcap : jsCap b.total_pages = some t := by rw [htp]; simp [jsCap, ht]
      have hstep1 : (applyIncrement b p).total_pages = some t := by
        by_cases hp : p = 0 <;> simp [applyIncrement, hp, htp]
      have hstep2 : jsOrZero (applyIncrement b p).current_page ≤ t := by
        by_cases hp : p = 0
        · simpa [applyIncrement, hp] using hc
        · simp [applyIncrement, hp, newCurrentPage, hcap, jsOrZero]
      have h := ih (applyIncrement b p) hstep1 hstep2
      simpa [applyIncrements] using h

/-- Claim C2, counterexample: for a book whose `total_pages` is set to `0`,
the increment does not compute `min(old + delta, total_pages)` — the falsy
total disables the clamp and the result exceeds the total. -/
theorem c2_counterexample :
    newCurrentPage ⟨some 0, some 0⟩ 5 ≠ min (0 + 5) 0 := by decide

/-- Claim C2 (amended): for every book whose `total_pages` is set to a
positive value, `updateProgress` sets `current_page` to
`min(old_current_page + pagesReadDelta, total_pages)`, so the page never
exceeds the total, never decreases from a legal state, the invariant holds
for every sequence of increments, and `280 + 50` against a total of `300`
yields `300`; a total of `0` is falsy in JavaScript and disables the clamp. -/
theorem c2_amended_clamp (c : Option Nat) (t p : Nat) (ht : 0 < t) :
    newCurrentPage ⟨c, some t⟩ p = min (jsOrZero c + p) t
    ∧ newCurrentPage ⟨c, some t⟩ p ≤ t
    ∧ (jsOrZero c ≤ t → jsOrZero c ≤ newCurrentPage ⟨c, some t⟩ p)
    ∧ (∀ ps : List Nat, jsOrZero c ≤ t →
        jsOrZero (applyIncrements ⟨c, some t⟩ ps).current_page ≤ t)
    ∧ newCurrentPage ⟨some 280, some 300⟩ 50 = 300 := by
  have ht' : t ≠ 0 := Nat.pos_iff_ne_zero.mp ht
  have hcap : jsCap (some t) = some t := by simp [jsCap, ht']
  have h1 : newCurrentPage ⟨c, some t⟩ p = min (jsOrZero c + p) t := by
    simp [newCurrentPage, hcap]
  refine ⟨h1, ?_, ?_, ?_, by decide⟩
  · rw [h1]; omega
  · intro hc; rw [h1]; omega
  · intro ps hc
    exact (applyIncrements_invariant t ht' ps ⟨c, some t⟩ rfl hc).2

/-- Claim C2, witness at the spec's own example. -/
theorem c2_witness :
    newCurrentPage ⟨some 280, some 300⟩ 50 = min (jsOrZero (some 280) + 50) 300 :=
  (c2_amended_clamp (some 280) 300 50 (by decide)).1

/-- Claim C3, counterexample: a book whose `date_completed` is already set
does not keep it on a transition to `past` — the timestamp is overwritten
with the current time. -/
theorem c3_counterexample :
    (updateBookStatus ⟨BStatus.current, some 1⟩ BStatus.past 2).date_completed
      ≠ some 1 := by decide

/-- Claim C3 (amended): a transition to `past` always sets `date_completed`
to the current time, overwriting any existing timestamp; a transition to any
other status leaves `date_completed` unchanged, and the status itself is
always updated. -/
theorem c3_amended_status (b : ShelfBook) (now : Int) (s : BStatus) :
    (updateBookStatus b BStatus.past now).date_completed = some now
    ∧ (s ≠ BStatus.past →
        (updateBookStatus b s now).date_completed = b.date_completed)
    ∧ (updateBookStatus b s now).status = s := by
  refine ⟨by simp [updateBookStatus], ?_, rfl⟩
  intro h
  simp [updateBookStatus, h]

/-- Claim C3, witness: moving an already-completed book to `planned` keeps
its completion timestamp. -/
theorem c3_witness :
    (updateBookStatus ⟨BStatus.past, some 7⟩ BStatus.planned 9).date_completed
      = (⟨BStatus.past, some 7⟩ : ShelfBook).date_completed :=
  (c3_amended_status ⟨BStatus.past, some 7⟩ 9 BStatus.planned).2.1 (by decide)

/-- A completed-date-but-not-past book for claim C4. -/
def c4Book : StatBook :=
  ⟨("Dune".toList), ("Frank Herbert".toList), BStatus.current, none,
    some ⟨0, 2024⟩, none, []⟩

/-- Claim C4, counterexample: the recommendations route's goal computation
counts a book whose `date_completed` lies in the reference year even though
its status is `current`, and reports 100% progress on a goal of one. -/
theorem c4_counterexample :
    booksThisYearA [c4Book] 2024 = 1
    ∧ goalProgressA [c4Book] 1 2024 = 100
    ∧ c4Book.status ≠ BStatus.past
    ∧ c4Book.date_completed.isSome = true := by decide

/-- Claim C4 (amended): both goal computations return `0` for a zero goal;
the dashboard's progress is clamped to at most `100` and counts only `past`
books with a completed date in the year, while the recommendations route
counts every book with a completed date in the year regardless of status. -/
theorem c4_amended_goal (books : List StatBook) (g : Nat) (y : Int) :
    goalProgressA books 0 y = 0
    ∧ readingGoalProgressB books 0 y = 0
    ∧ readingGoalProgressB books g y ≤ 100
    ∧ booksThisYearB books y
        = booksThisYearA (books.filter (fun b => decide (b.status = BStatus.past))) y := by
  refine ⟨by simp [goalProgressA], by simp [readingGoalProgressB], ?_, ?_⟩
  · by_cases hg : g = 0
    · simp [readingGoalProgressB, hg]
    · simp only [readingGoalProgressB, if_neg hg]
      exact Nat.min_le_left _ _
  · unfold booksThisYearB booksThisYearA completedWithDate
    rw [List.filter_filter, List.filter_filter]
    apply congrArg List.length
    apply List.filter_congr
    intro b _
    cases hdc : b.date_completed <;> simp [hdc]

/-- Claim C1, counterexample: on the spec's own example — one entry each on
days 10, 9, 8 and 1 with today = day 10 — the recommendations route's streak
computation reports a current streak of 2, not 3: its `currentStreak` is only
updated at the first loop iteration and never reflects the full run. -/
theorem c1_counterexample :
    (streakStats [⟨10, 3⟩, ⟨9, 3⟩, ⟨8, 3⟩, ⟨1, 3⟩]).2 = 2 ∧ (2 : Nat) ≠ 3 := by
  decide

/-- Claim C1 (amended): neither streak implementation deduplicates dates —
two same-day entries yield a streak of 2 in the dashboard's walk.  On
distinct entries `D, D-1, D-2, D-5` the recommendations route reports
`longestStreak = 3` but `currentStreak = 2`, while the dashboard's
`calculateStreak` walks from today backward and reports `3` when `D` is today
or yesterday (`today - D ≤ 1`) and `0` when the most recent entry is more
than one day old. -/
theorem c1_amended_streaks (t d : Int) :
    calculateStreaks [d, d - 1, d - 2, d - 5] = (3, 2)
    ∧ (t - d ≤ 1 → calculateStreak t [d, d - 1, d - 2, d - 5] = 3)
    ∧ (2 ≤ t - d → calculateStreak t [d, d - 1, d - 2, d - 5] = 0)
    ∧ calculateStreak t [t, t] = 2 := by
  have h1 : d - (d - 1) = 1 := by ring
  have h2 : d - 1 - (d - 2) = 1 := by ring
  have h3 : d - 2 - (d - 5) = 3 := by ring
  have hsort : sortDatesDesc [d, d - 1, d - 2, d - 5] = [d, d - 1, d - 2, d - 5] := by
    apply List.Sorted.insertionSort_eq
    simp [List.sorted_cons, descInt]
    omega
  have hsort2 : sortDatesDesc [t, t] = [t, t] := by
    apply List.Sorted.insertionSort_eq
    simp [List.sorted_cons, descInt]
  refine ⟨?_, ?_, ?_, ?_⟩
  · norm_num [calculateStreaks, streaksGo, h1, h2, h3]
  · intro ht
    have hnot : ¬ (t - d > 1) := by omega
    norm_num [calculateStreak, hsort, walkStreak, h1, h2, h3, ht, hnot]
  · intro ht
    have hgt : t - d > 1 := by omega
    simp [calculateStreak, hsort, hgt]
  · have h4 : t - t = 0 := by ring
    norm_num [calculateStreak, hsort2, walkStreak, h4]

/-- Claim C1, witness: the dashboard streak at `D` = today. -/
theorem c1_witness : calculateStreak 10 [10, 10 - 1, 10 - 2, 10 - 5] = 3 :=
  (c1_amended_streaks 10 10).2.1 (by decide)

/-- Candidate whose title parses to series `Spider-Man` with no order. -/
def spItemA : RawItem := ⟨("Spider-Man: Homecoming".toList), [("Stan Lee".toList)]⟩

/-- Candidate whose title parses to series `Spider-Man` with order 5. -/
def spItemB : RawItem :=
  ⟨("Spider-Man: Chronicles Book 5".toList), [("Stan Lee".toList)]⟩

/-- A default series result for safe head access in concrete statements. -/
def dummyResult : SeriesResult := ⟨[], 0, [], []⟩

/-- Claim C5 (confirmed): every group in the search-series output holds at
least two unique books after normalised-title deduplication, and two
unrelated single-book candidates with no series markers produce an empty
result. -/
theorem c5_min_group_size :
    (∀ (items : List RawItem) (r : SeriesResult),
        r ∈ resolveSeries items → 2 ≤ r.books.length)
    ∧ resolveSeries [⟨("The Hobbit".toList), [("J. R. R. Tolkien".toList)]⟩,
        ⟨("Emma".toList), [("Jane Austen".toList)]⟩] = [] := by
  constructor
  · intro items r hr
    unfold resolveSeries at hr
    have h1 : r ∈ List.insertionSort relDesc
        ((buildGroups items).filterMap (fun p => groupToResult p.1 p.2)) :=
      List.take_subset _ _ hr
    have h2 : r ∈ (buildGroups items).filterMap (fun p => groupToResult p.1 p.2) :=
      ((List.perm_insertionSort relDesc _).mem_iff).mp h1
    obtain ⟨p, _, hres⟩ := List.mem_filterMap.mp h2
    simp only [groupToResult] at hres
    split_ifs at hres with hlen
    have hr' := Option.some.inj hres
    rw [← hr']
    simpa using hlen
  · decide

/-- Claim C5, witness: the Spider-Man pair forms a group of two books. -/
theorem c5_witness :
    2 ≤ ((resolveSeries [spItemA, spItemB]).headD dummyResult).books.length :=
  c5_min_group_size.1 [spItemA, spItemB] _ (by decide)

/-- Claim C6, counterexample: in the Spider-Man group the order-less first
candidate is assigned order 1 (its discovery position), not group size + 1
(which would be 3), and it sorts before the candidate with parsed order 5
instead of after it. -/
theorem c6_counterexample :
    (((resolveSeries [spItemA, spItemB]).headD dummyResult).books.map
        (fun b => (b.title, b.order)))
      = [(("Spider-Man: Homecoming".toList), 1),
         (("Spider-Man: Chronicles Book 5".toList), 5)]
    ∧ (extractSeriesInfo ("Spider-Man: Homecoming".toList)).order = none
    ∧ ((resolveSeries [spItemA, spItemB]).headD dummyResult).books.length + 1 ≠ 1 := by
  decide

/-- Claim C6 (amended): a candidate with no parsed order (or the falsy parsed
order 0) is appended with default order `k + 1` where `k` is the number of
candidates already in its group at discovery time — its discovery position —
not the final group size plus one, so order-less books need not sort after
every book with a parsed order. -/
theorem c6_amended_default_order (gd : GroupData) (t a : List Char)
    (o : Option Nat) (h : o = none ∨ o = some 0) :
    (pushBook gd t a o).books = gd.books ++ [⟨t, a, gd.books.length + 1⟩] := by
  rcases h with rfl | rfl <;> simp [pushBook, jsOrderDefault]

/-- Claim C6, witness: pushing an order-less book onto an empty group assigns
order 1. -/
theorem c6_witness :
    (pushBook ⟨[], [], 0⟩ ("X".toList) ("Y".toList) none).books
      = (⟨[], [], 0⟩ : GroupData).books
        ++ [⟨("X".toList), ("Y".toList), (⟨[], [], 0⟩ : GroupData).books.length + 1⟩] :=
  c6_amended_default_order ⟨[], [], 0⟩ _ _ none (Or.inl rfl)

/-- A dated candidate for the gap-sort counterexample. -/
def gapItemA : GapItem := ⟨("Zebra pern".toList), [("Anne".toList)], some 100⟩

/-- An undated candidate for the gap-sort counterexample. -/
def gapItemB : GapItem := ⟨("Aardvark pern".toList), [("Anne".toList)], none⟩

/-- Claim C7, counterexample: the undated candidate `Aardvark pern` is placed
before the dated candidate `Zebra pern` — when either side lacks a publish
date the comparator falls back to title order, so undated candidates are not
pushed after dated ones. -/
theorem c7_counterexample :
    findSeriesGaps ("pern".toList) ("Anne".toList) [gapItemA, gapItemB]
      = [("Aardvark pern".toList), ("Zebra pern".toList)]
    ∧ gapItemB.publishedDate = none
    ∧ gapItemB.title = ("Aardvark pern".toList)
    ∧ gapItemA.publishedDate = some 100
    ∧ gapItemA.title = ("Zebra pern".toList)
    ∧ ("Aardvark pern".toList) ≠ ("Zebra pern".toList) := by decide

/-- Claim C7 (amended): the suggestion list always holds at most five titles,
and the sort compares by publish date ascending only when both records carry
a date, falling back to alphabetical title order otherwise — undated records
are interleaved alphabetically rather than sorted to the end. -/
theorem c7_amended_sort :
    (∀ (sn au : List Char) (items : List GapItem),
        (findSeriesGaps sn au items).length ≤ 5)
    ∧ (∀ a b : GapBook, a.publishedDate = none ∨ b.publishedDate = none →
        sortGaps [a, b] = if lexLe a.title b.title then [a, b] else [b, a]) := by
  constructor
  · intro sn au items
    unfold findSeriesGaps
    simp only [List.length_map, List.length_take]
    exact Nat.min_le_left _ _
  · intro a b h
    have hg : gapLe a b = lexLe a.title b.title := by
      rcases h with ha | hb
      · cases hab : b.publishedDate <;> simp [gapLe, ha, hab]
      · cases haa : a.publishedDate <;> simp [gapLe, hb, haa]
    by_cases hl : lexLe a.title b.title = true
    · simp [sortGaps, List.insertionSort, List.orderedInsert, gapRel, hg, hl]
    · simp [sortGaps, List.insertionSort, List.orderedInsert, gapRel, hg, hl]

/-- An undated gap record for the C7 witness. -/
def gapBookB : GapBook := ⟨("Aardvark pern".toList), ("Anne".toList), none⟩

/-- A dated gap record for the C7 witness. -/
def gapBookA : GapBook := ⟨("Zebra pern".toList), ("Anne".toList), some 100⟩

/-- Claim C7, witness: a two-record sort with one undated record compares the
titles. -/
theorem c7_witness :
    sortGaps [gapBookB, gapBookA]
      = if lexLe gapBookB.title gapBookA.title then [gapBookB, gapBookA]
        else [gapBookA, gapBookB] :=
  c7_amended_sort.2 gapBookB gapBookA (Or.inl rfl)

/-- Bumping one genre occurrence raises the total count by exactly one. -/
theorem sum_bumpGenre (g : List Char) (l : List (List Char × Nat)) :
    ((bumpGenre g l).map (fun p => p.2)).sum = ((l.map (fun p => p.2)).sum) + 1 := by
  induction l with
  | nil => simp [bumpGenre]
  | cons hd tl ih =>
      obtain ⟨k, n⟩ := hd
      by_cases hk : k = g
      · simp [bumpGenre, hk]
        omega
      · simp [bumpGenre, hk, ih]
        omega

/-- Folding one book's genre list raises the total count by its length. -/
theorem sum_foldGenres (gs : List (List Char)) (acc : List (List Char × Nat)) :
    (((gs.foldl (fun a g => bumpGenre g a) acc)).map (fun p => p.2)).sum
      = ((acc.map (fun p => p.2)).sum) + gs.length := by
  induction gs generalizing acc with
  | nil => simp
  | cons g gs ih =>
      simp only [List.foldl_cons, List.length_cons]
      rw [ih (bumpGenre g acc), sum_bumpGenre]
      omega

/-- The accumulated genre counts sum to the total number of genre
occurrences over all books. -/
theorem sum_genreCounts (books : List StatBook) :
    ((genreCounts books).map (fun p => p.2)).sum
      = (books.map (fun b => b.genre.length)).sum := by
  suffices h : ∀ acc : List (List Char × Nat),
      (((books.foldl (fun acc b => b.genre.foldl (fun a g => bumpGenre g a) acc) acc)).map
          (fun p => p.2)).sum
        = ((acc.map (fun p => p.2)).sum) + (books.map (fun b => b.genre.length)).sum by
    simpa [genreCounts] using h []
  induction books with
  | nil => intro acc; simp
  | cons b bs ih =>
      intro acc
      simp only [List.foldl_cons, List.map_cons, List.sum_cons]
      rw [ih (b.genre.foldl (fun a g => bumpGenre g a) acc), sum_foldGenres]
      omega

/-- The sum of the final distribution's counts equals the total number of
genre occurrences: the percentage step copies the counts and the sort only
permutes the entries. -/
theorem distSum_eq (books : List StatBook) :
    distSum (calculateGenreDistribution books)
      = (books.map (fun b => b.genre.length)).sum := by
  unfold distSum calculateGenreDistribution
  have hperm :
      (List.insertionSort genreDesc
          ((genreCounts books).map (fun p =>
            (p.1, (⟨p.2, if books.length > 0 then jsRound (p.2 * 100) books.length else 0⟩ : GenreStat))))).Perm
        ((genreCounts books).map (fun p =>
          (p.1, (⟨p.2, if books.length > 0 then jsRound (p.2 * 100) books.length else 0⟩ : GenreStat)))) :=
    List.perm_insertionSort _ _
  rw [(hperm.map (fun p => p.2.count)).sum_eq]
  rw [List.map_map]
  have hcomp :
      ((fun p : List Char × GenreStat => p.2.count) ∘ (fun p : List Char × Nat =>
        (p.1, (⟨p.2, if books.length > 0 then jsRound (p.2 * 100) books.length else 0⟩ : GenreStat))))
        = fun p : List Char × Nat => p.2 := rfl
  rw [hcomp]
  exact sum_genreCounts books

/-- When every book has at least one genre entry, the total count dominates
the book count, with equality exactly when every book has exactly one. -/
theorem length_le_genre_sum (books : List StatBook)
    (h : ∀ b ∈ books, b.genre ≠ []) :
    books.length ≤ (books.map (fun b => b.genre.length)).sum
    ∧ (books.length = (books.map (fun b => b.genre.length)).sum
        ↔ ∀ b ∈ books, b.genre.length = 1) := by
  induction books with
  | nil => simp
  | cons b bs ih =>
      have hb : b.genre ≠ [] := h b (List.mem_cons_self b bs)
      have hb1 : 1 ≤ b.genre.length := List.length_pos.mpr hb
      obtain ⟨ih1, ih2⟩ := ih (fun x hx => h x (List.mem_cons_of_mem b hx))
      constructor
      · simp only [List.length_cons, List.map_cons, List.sum_cons]
        omega
      · simp only [List.length_cons, List.map_cons, List.sum_cons]
        constructor
        · intro heq x hx
          rcases List.mem_cons.mp hx with rfl | hx'
          · omega
          · have hbs : bs.length = (bs.map (fun b => b.genre.length)).sum := by omega
            exact (ih2.mp hbs) x hx'
        · intro hall
          have h1 : b.genre.length = 1 := hall b (List.mem_cons_self b bs)
          have h2 : bs.length = (bs.map (fun b => b.genre.length)).sum :=
            ih2.mpr (fun x hx => hall x (List.mem_cons_of_mem b hx))
          omega

/-- A book with an empty genre list, for the C8 counterexample. -/
def c8Book : StatBook :=
  ⟨("Zero".toList), ("A".toList), BStatus.planned, none, none, none, []⟩

/-- Claim C8, counterexample: a single book with an empty genre set
contributes no count at all, so the distribution sum falls below the book
count. -/
theorem c8_counterexample :
    ¬ (([c8Book] : List StatBook).length
        ≤ distSum (calculateGenreDistribution [c8Book])) := by decide

/-- Claim C8 (amended): for every book set in which each book has at least
one genre entry, the genre distribution counts sum to at least the number of
books, with equality exactly when every book has exactly one genre entry;
each book contributes one count per entry of its genre list, so a book with
an empty genre list breaks the lower bound. -/
theorem c8_amended_genre_sum (books : List StatBook)
    (h : ∀ b ∈ books, b.genre ≠ []) :
    books.length ≤ distSum (calculateGenreDistribution books)
    ∧ (books.length = distSum (calculateGenreDistribution books)
        ↔ ∀ b ∈ books, b.genre.length = 1) := by
  rw [distSum_eq]
  exact length_le_genre_sum books h

/-- A one-genre book for the C8 witness. -/
def c8WBook : StatBook :=
  ⟨("One".toList), ("A".toList), BStatus.planned, none, none, none,
    [("fantasy".toList)]⟩

/-- Claim C8, witness at a one-book, one-genre library. -/
theorem c8_witness :
    ([c8WBook] : List StatBook).length
      ≤ distSum (calculateGenreDistribution [c8WBook]) :=
  (c8_amended_genre_sum [c8WBook] (by decide)).1

/-- Claim C9 (confirmed): an absent, empty or fully malformed candidate list
yields an empty series result and an empty gap-suggestion list, and every
zero-division case of the statistics engine has an explicit defined fallback
on empty input — all modelled computations are total functions. -/
theorem c9_defaults :
    resolveSeriesResponse none = []
    ∧ resolveSeries [] = []
    ∧ resolveSeries [⟨[], [("A".toList)]⟩] = []
    ∧ resolveSeries [⟨("The Hobbit".toList), []⟩] = []
    ∧ (∀ sn au : List Char, findSeriesGaps sn au [] = [])
    ∧ completionRate [] = 0
    ∧ goalProgressA [] 0 2024 = 0
    ∧ readingGoalProgressB [] 0 2024 = 0
    ∧ activeDays [] = 0
    ∧ averagePagesPerDay [] = 0
    ∧ streakStats [] = (0, 0)
    ∧ calculateStreak 0 [] = 0
    ∧ averageTimePerBook [] = 0
    ∧ fastestRead [] = none
    ∧ calculateGenreDistribution [] = [] := by
  refine ⟨rfl, rfl, by decide, by decide, fun sn au => rfl, by decide, by decide,
    by decide, by decide, by decide, by decide, by decide, by decide, by decide,
    by decide⟩

/-- Claim C10 (confirmed): the reported series name is the grouping key cut
at its first hyphen, so a hyphen-free extracted name round-trips for every
author, while the hyphenated extracted name `Spider-Man` is reported as its
strict prefix `Spider`. -/
theorem c10_key_split :
    (∀ name au : List Char, '-' ∉ name → keyName (mkKey name au) = name)
    ∧ (extractSeriesInfo ("Spider-Man: Homecoming".toList)).seriesName
        = ("Spider-Man".toList)
    ∧ (resolveSeries [spItemA, spItemB]).map (fun r => r.seriesName)
        = [("Spider".toList)] := by
  refine ⟨?_, by decide, by decide⟩
  intro name au h
  induction name with
  | nil => simp [keyName, mkKey]
  | cons c cs ih =>
      have hc : c ≠ '-' := by
        intro hcc
        exact h (by simp [hcc])
      have h' : '-' ∉ cs := fun hm => h (List.mem_cons_of_mem _ hm)
      have ih' := ih h'
      simp only [keyName, mkKey, List.cons_append, List.takeWhile_cons] at ih' ⊢
      simp [hc] at ih' ⊢
      exact ih'

/-- Claim C10, witness: a hyphen-free series name is reported unchanged. -/
theorem c10_witness :
    keyName (mkKey ("Emma".toList) ("Jane Austen".toList)) = ("Emma".toList) :=
  c10_key_split.1 _ _ (by decide)
